import Mathlib

/-!
Verification development for the nsql-cache Google Datastore adapter
(src/lib/index.js). The adapter exposes pure canonicalization functions
(keyToString, queryToString), small entity helpers (getKeyFromEntity,
addKeyToEntity, getEntityKindFromQuery), the cache-policy resolver
(isCacheOn) and a client wrapper (wrapClient) that intercepts
get / createQuery-run / save / update / insert / upsert / delete and
coordinates an external nsql-cache instance.

The pure functions are embedded directly from the source. The nsql-cache
collaborator (cache.keys.*, cache.queries.*) lives in a separate package;
its operations are modelled from the specification (sections 4.3, 4.4, 6)
and are marked as such. Stateful wrapped operations are embedded as
explicit state-passing functions over an abstract cache state; promise
rejection is modelled with Except.
-/

namespace NsqlCacheDatastore

/-- The fixed separator constant from src/lib/index.js line 22. -/
def separator : String := ":%:"

/-- JavaScript Array.prototype.join with a given separator restricted to
string elements: the separator is placed between consecutive elements,
with no trailing separator. -/
def joinSep : List String → String
  | [] => ""
  | [a] => a
  | a :: b :: rest => a ++ separator ++ joinSep (b :: rest)

/-- A Datastore path identifier: a string name or an integer id. -/
inductive Ident
  | str (s : String)
  | int (n : Int)
deriving DecidableEq, Repr

/-- How a path identifier is rendered by JavaScript string coercion
(Array.prototype.join stringifies numbers). -/
def Ident.render : Ident → String
  | .str s => s
  | .int n => toString n

/-- One path segment of a Datastore Key: a kind plus an identifier. -/
structure Segment where
  kind : String
  ident : Ident
deriving DecidableEq, Repr

/-- A Datastore Key: optional namespace plus an ordered list of path
segments. The JavaScript object exposes the flattened path array
(kind, id, kind, id, ...) as key.path. -/
structure DsKey where
  nspace : Option String
  segments : List Segment
deriving DecidableEq, Repr

/-- Flattening of the segment list into the path array exposed by the
Datastore client (alternating kind and identifier, identifiers
string-coerced on join). -/
def pathList : List Segment → List String
  | [] => []
  | seg :: rest => seg.kind :: seg.ident.render :: pathList rest

/-- The flattened path array of a Key (key.path in JavaScript). -/
def DsKey.path (k : DsKey) : List String :=
  pathList k.segments

/-- The kind property of a Datastore Key: the kind of the last path
segment (the terminal kind). Empty paths never occur for real keys. -/
def DsKey.kind (k : DsKey) : String :=
  match k.segments.getLast? with
  | some seg => seg.kind
  | none => ""

/-- keyToString (src/lib/index.js lines 79-86), applied to an actual Key
object: the namespace when truthy (a nonempty string) followed by the
separator, then key.path joined with the separator. -/
def keyToString (key : DsKey) : String :=
  (match key.nspace with
   | some ns => if ns = "" then "" else ns ++ separator
   | none => "") ++ joinSep key.path

/-- The JavaScript argument actually passed to keyToString: undefined,
null, or a Key object. -/
inductive KeyArg
  | undefined
  | null
  | key (k : DsKey)
deriving DecidableEq, Repr

/-- A synchronously thrown JavaScript exception: a plain Error with a
message, or a TypeError (raised by the runtime on a null property
access). -/
inductive JsException
  | error (msg : String)
  | typeError
deriving DecidableEq, Repr

/-- keyToString including its guard (src/lib/index.js lines 80-82): the
guard tests typeof key === 'undefined' only, so a null argument passes
the guard and the subsequent key.namespace access raises a TypeError. -/
def keyToStringChecked : KeyArg → Except JsException String
  | .undefined => .error (.error "Key cannot be undefined.")
  | .null => .error .typeError
  | .key k => .ok (keyToString k)

/-- The component strings of a Key encoding: the namespace when truthy,
followed by the flattened path. keyToString joins exactly these with the
separator (for a nonempty path). -/
def keyComponents (k : DsKey) : List String :=
  (match k.nspace with
   | some ns => if ns = "" then [] else [ns]
   | none => []) ++ k.path

/-- Side condition for injectivity: an identifier is a string that does
not contain the colon character (the first character of the separator). -/
def identOk : Ident → Prop
  | .str s => ':' ∉ s.data
  | .int _ => False

instance : DecidablePred identOk := fun i =>
  match i with
  | .str s => (inferInstance : Decidable (':' ∉ s.data))
  | .int _ => (inferInstance : Decidable False)

/-- Side condition for injectivity: the namespace, when present, is
nonempty and colon-free. -/
def nsOk : Option String → Prop
  | none => True
  | some ns => ns ≠ "" ∧ ':' ∉ ns.data

instance : DecidablePred nsOk := fun o =>
  match o with
  | none => (inferInstance : Decidable True)
  | some ns => (inferInstance : Decidable (ns ≠ "" ∧ ':' ∉ ns.data))

/-- A Key on which the encoding is collision-free: nonempty path, string
identifiers, and no colon inside any namespace, kind or identifier. -/
def goodKey (k : DsKey) : Prop :=
  k.segments ≠ [] ∧
  (∀ seg ∈ k.segments, ':' ∉ seg.kind.data ∧ identOk seg.ident) ∧
  nsOk k.nspace

instance (k : DsKey) : Decidable (goodKey k) := by
  unfold goodKey; infer_instance

/-- The value of a query filter: a plain string, a number, or a Datastore
Key (as produced by hasAncestor / __key__ filters). -/
inductive FilterVal
  | str (s : String)
  | int (n : Int)
  | key (k : DsKey)
deriving DecidableEq, Repr

/-- One filter of a Datastore Query: property name, operator, value. -/
structure DsFilter where
  name : String
  op : String
  val : FilterVal
deriving DecidableEq, Repr

/-- One order clause of a Datastore Query: property name plus direction
sign (the client stores "+" or "-"). -/
structure QOrder where
  name : String
  sign : String
deriving DecidableEq, Repr

/-- The declared fields of a Datastore Query object read by
queryToString. limitVal and offsetVal default to -1 in the client;
namespace, start and end cursors may be unset (rendered as the empty
string by Array.prototype.join). -/
structure Query where
  kinds : List String
  nspace : Option String
  filters : List DsFilter
  groupByVal : List String
  limitVal : Int
  offsetVal : Int
  orders : List QOrder
  selectVal : List String
  startVal : Option String
  endVal : Option String
deriving DecidableEq, Repr

/-- Rendering of a possibly-unset string field by Array.prototype.join:
undefined and null become the empty string. -/
def renderOptString : Option String → String
  | none => ""
  | some s => s

/-- getEntityKindFromQuery (src/lib/index.js lines 55-57): query.kinds[0].
The Datastore client guarantees at least one kind for a created query. -/
def getEntityKindFromQuery (q : Query) : String :=
  q.kinds.headD ""

/-- The encoding of a filter value inside queryToString (lines 104-108):
a Key value (recognized by ds.isKey) is encoded with keyToString, any
other value is string-coerced. -/
def filterValEncode : FilterVal → String
  | .str s => s
  | .int n => toString n
  | .key k => keyToString k

/-- queryToString (src/lib/index.js lines 93-122): pushes ten encoded
fields into an array, in source order, and joins the array with the
separator. -/
def queryToString (q : Query) : String :=
  joinSep
    [joinSep q.kinds,
     renderOptString q.nspace,
     q.filters.foldl (fun acc f => acc ++ f.name ++ f.op ++ filterValEncode f.val) "",
     String.join q.groupByVal,
     toString q.limitVal,
     toString q.offsetVal,
     q.orders.foldl (fun acc o => acc ++ o.name ++ o.sign) "",
     String.join q.selectVal,
     renderOptString q.startVal,
     renderOptString q.endVal]

/-- Field 1 of the encoding: the target kinds, joined. -/
def kindsField (q : Query) : String := joinSep q.kinds

/-- Field 2 of the encoding: the namespace, empty when unset. -/
def namespaceField (q : Query) : String := renderOptString q.nspace

/-- Field 3 of the encoding, written as the specification describes it:
the concatenation, in declared order and with no inter-filter separator,
of name + operator + value for each filter, a Key value being replaced
by its keyToString encoding. -/
def specFiltersField (filters : List DsFilter) : String :=
  String.join (filters.map (fun f => f.name ++ f.op ++ filterValEncode f.val))

/-- Field 4 of the encoding: group-by property names concatenated. -/
def groupByField (q : Query) : String := String.join q.groupByVal

/-- Field 5 of the encoding: the limit (default -1 when unset). -/
def limitField (q : Query) : String := toString q.limitVal

/-- Field 6 of the encoding: the offset (default -1 when unset). -/
def offsetField (q : Query) : String := toString q.offsetVal

/-- Field 7 of the encoding: order clauses, each name + direction sign,
concatenated. -/
def ordersField (q : Query) : String :=
  q.orders.foldl (fun acc o => acc ++ o.name ++ o.sign) ""

/-- Field 8 of the encoding: projected property names concatenated. -/
def selectField (q : Query) : String := String.join q.selectVal

/-- Field 9 of the encoding: the start cursor, empty when unset. -/
def startField (q : Query) : String := renderOptString q.startVal

/-- Field 10 of the encoding: the end cursor, empty when unset. -/
def endField (q : Query) : String := renderOptString q.endVal

/-- The last nine encoded fields (everything after the kinds field). -/
def restFields (q : Query) : List String :=
  [namespaceField q, specFiltersField q.filters, groupByField q,
   limitField q, offsetField q, ordersField q, selectField q,
   startField q, endField q]

/-- The per-call cache option (options.cache): absent, a boolean, or a
ttl-carrying object (an object is truthy). -/
inductive CacheOption
  | undefined
  | boolean (b : Bool)
  | ttl (n : Int)
deriving DecidableEq, Repr

/-- The global cache flag (cache.config.global): absent or a boolean. -/
inductive GlobalFlag
  | undefined
  | boolean (b : Bool)
deriving DecidableEq, Repr

/-- isCacheOn (src/lib/index.js lines 15-20), returning the truthiness of
the JavaScript return value: a present options.cache wins (an object is
truthy), otherwise config.global !== false decides. -/
def isCacheOn (o : CacheOption) (g : GlobalFlag) : Bool :=
  match o with
  | .undefined =>
    match g with
    | .boolean false => false
    | _ => true
  | .boolean b => b
  | .ttl _ => true

/-- The global "cache enabled" flag as the specification words it: enabled
unless explicitly set to false. -/
def globalEnabled : GlobalFlag → Bool
  | .boolean false => false
  | _ => true

/-- A promise rejection reason at the adapter boundary: a store failure or
a cache-backend failure. -/
inductive DsError
  | storeError (msg : String)
  | cacheError (msg : String)
deriving DecidableEq, Repr

/-- Modelled from the spec: the observable state of the external
nsql-cache instance (sections 3, 4.3, 6) - record entries keyed by Key
CanonicalString, query entries keyed by Query CanonicalString, and the
per-kind invalidation registry of query CanonicalStrings. Cached values
are opaque and modelled as natural numbers. -/
structure CacheState where
  keysCache : String → Option Nat
  queriesCache : String → Option Nat
  registry : String → List String

/-- Modelled from the spec: the availability of the external cache
backend (section 7 allows every cache operation to fail); each flag makes
the corresponding operation reject. -/
structure CacheBackend where
  failSet : Bool
  failDel : Bool
  failClear : Bool
deriving DecidableEq, Repr

/-- A cache backend on which every operation succeeds. -/
def nofail : CacheBackend := ⟨false, false, false⟩

/-- An entity argument to ds.save: a Key, opaque data, and the optional
method discriminator added by update / insert / upsert. -/
structure Entity where
  key : DsKey
  data : Nat
  method : Option String
deriving DecidableEq, Repr

/-- Modelled from the spec: nsql-cache cache.keys.set (section 4.4 step 2
and section 6) - store the value under the Key CanonicalString; rejects
when the backend is unavailable. -/
def keysSet (b : CacheBackend) (key : DsKey) (v : Nat) (st : CacheState) :
    Except DsError CacheState :=
  if b.failSet then .error (.cacheError "keys.set") else
  .ok { st with
        keysCache := fun s => if s = keyToString key then some v else st.keysCache s }

/-- Modelled from the spec: nsql-cache cache.keys.mset - set every
(key, data) pair of the batch. -/
def keysMset (b : CacheBackend) (pairs : List (DsKey × Nat)) (st : CacheState) :
    Except DsError CacheState :=
  match pairs with
  | [] => .ok st
  | (k, v) :: rest =>
    match keysSet b k v st with
    | .error e => .error e
    | .ok st1 => keysMset b rest st1

/-- Modelled from the spec: nsql-cache cache.keys.del - evict the entry
stored under the Key CanonicalString; rejects when the backend is
unavailable. -/
def keysDel (b : CacheBackend) (key : DsKey) (st : CacheState) :
    Except DsError CacheState :=
  if b.failDel then .error (.cacheError "keys.del") else
  .ok { st with
        keysCache := fun s => if s = keyToString key then none else st.keysCache s }

/-- Modelled from the spec: nsql-cache cache.keys.del applied to a batch
of keys. -/
def keysDelMany (b : CacheBackend) (keys : List DsKey) (st : CacheState) :
    Except DsError CacheState :=
  match keys with
  | [] => .ok st
  | k :: rest =>
    match keysDel b k st with
    | .error e => .error e
    | .ok st1 => keysDelMany b rest st1

/-- Modelled from the spec: nsql-cache cache.keys.read (section 4.4 read
path) - probe the cache under the Key CanonicalString; on a hit return
the cached value, on a miss return the store value and prime the cache
with it. -/
def keysRead (key : DsKey) (storeVal : Nat) (st : CacheState) : Nat × CacheState :=
  match st.keysCache (keyToString key) with
  | some v => (v, st)
  | none =>
    (storeVal,
     { st with
       keysCache := fun s => if s = keyToString key then some storeVal else st.keysCache s })

/-- Modelled from the spec: nsql-cache cache.queries.read (section 4.4
query read path) - probe the cache under the Query CanonicalString; on a
hit return the cached result tuple; on a miss return the freshly executed
result, cache it, and register the CanonicalString in the invalidation
registry under the query's operative kind (getEntityKindFromQuery). -/
def queriesRead (q : Query) (fetchRes : Nat) (st : CacheState) : Nat × CacheState :=
  match st.queriesCache (queryToString q) with
  | some v => (v, st)
  | none =>
    (fetchRes,
     { st with
       queriesCache := fun s =>
         if s = queryToString q then some fetchRes else st.queriesCache s,
       registry := fun k =>
         if k = getEntityKindFromQuery q then
           (if queryToString q ∈ st.registry (getEntityKindFromQuery q) then
              st.registry (getEntityKindFromQuery q)
            else queryToString q :: st.registry (getEntityKindFromQuery q))
         else st.registry k })

/-- Modelled from the spec: nsql-cache cache.queries.clearQueriesByKind
for one kind (section 4.3 drainAndClear plus section 4.4 step 2) - evict
from the query cache every CanonicalString registered under the kind and
empty the kind's registry set; rejects when the backend is unavailable. -/
def clearQueriesByKind (b : CacheBackend) (kind : String) (st : CacheState) :
    Except DsError CacheState :=
  if b.failClear then .error (.cacheError "queries.clearQueriesByKind") else
  .ok { st with
        queriesCache := fun s => if s ∈ st.registry kind then none else st.queriesCache s,
        registry := fun k => if k = kind then [] else st.registry k }

/-- Modelled from the spec: nsql-cache cache.queries.clearQueriesByKind
applied to the list of kinds of a batch. -/
def clearQueriesByKindMany (b : CacheBackend) (kinds : List String) (st : CacheState) :
    Except DsError CacheState :=
  match kinds with
  | [] => .ok st
  | k :: rest =>
    match clearQueriesByKind b k st with
    | .error e => .error e
    | .ok st1 => clearQueriesByKindMany b rest st1

/-- The wrapped datastore.get (src/lib/index.js lines 165-170): with the
cache off, call the original client only; otherwise read through the
cache. The store's answer for the key is passed as storeVal. -/
def wrappedGet (o : CacheOption) (g : GlobalFlag) (key : DsKey) (storeVal : Nat)
    (st : CacheState) : Nat × CacheState :=
  if isCacheOn o g = false then (storeVal, st)
  else keysRead key storeVal st

/-- The wrapped query.run (src/lib/index.js lines 181-186): with the
cache off, run the original query only; otherwise read through the query
cache. The freshly executed result is passed as fetchRes. -/
def wrappedRunQuery (o : CacheOption) (g : GlobalFlag) (q : Query) (fetchRes : Nat)
    (st : CacheState) : Nat × CacheState :=
  if isCacheOn o g = false then (fetchRes, st)
  else queriesRead q fetchRes st

/-- The wrapped datastore.save for a single entity (src/lib/index.js
lines 198-218, non-array branch): the store call settles first
(storeResult); on store success with the cache off the store result is
returned untouched; with the cache on, cache.keys.set and
cache.queries.clearQueriesByKind(entity.key.kind) run and their
rejection, if any, is the promise's rejection (the source chains
Promise.all with no catch). The two cache operations touch disjoint parts
of the state, so parallel settlement is modelled sequentially. -/
def wrappedSaveSingle (b : CacheBackend) (storeResult : Except DsError Nat)
    (e : Entity) (o : CacheOption) (g : GlobalFlag) (st : CacheState) :
    Except DsError (Nat × CacheState) :=
  match storeResult with
  | .error err => .error err
  | .ok res =>
    if isCacheOn o g = false then .ok (res, st)
    else
      match keysSet b e.key e.data st with
      | .error err => .error err
      | .ok st1 =>
        match clearQueriesByKind b e.key.kind st1 with
        | .error err => .error err
        | .ok st2 => .ok (res, st2)

/-- The wrapped datastore.save for an entity array (src/lib/index.js
lines 198-218, array branch): cache.keys.mset over the flattened
(key, data) pairs and cache.queries.clearQueriesByKind over the written
keys' kinds, with the same rejection behavior as the single case. -/
def wrappedSaveMany (b : CacheBackend) (storeResult : Except DsError Nat)
    (entities : List Entity) (o : CacheOption) (g : GlobalFlag) (st : CacheState) :
    Except DsError (Nat × CacheState) :=
  match storeResult with
  | .error err => .error err
  | .ok res =>
    if isCacheOn o g = false then .ok (res, st)
    else
      match keysMset b (entities.map (fun e => (e.key, e.data))) st with
      | .error err => .error err
      | .ok st1 =>
        match clearQueriesByKindMany b (entities.map (fun e => e.key.kind)) st1 with
        | .error err => .error err
        | .ok st2 => .ok (res, st2)

/-- The wrapped datastore.update (src/lib/index.js lines 220-223):
arrify the entities, tag each with method 'update', delegate to the
wrapped save. insert and upsert (lines 225-233) differ only in the tag. -/
def wrappedUpdate (b : CacheBackend) (storeResult : Except DsError Nat)
    (entities : List Entity) (o : CacheOption) (g : GlobalFlag) (st : CacheState) :
    Except DsError (Nat × CacheState) :=
  wrappedSaveMany b storeResult
    (entities.map (fun e => { e with method := some "update" })) o g st

/-- The wrapped datastore.delete for a single key (src/lib/index.js
lines 241-251, non-array branch). The wrapper's parameter list is keys
only: no options are accepted, no cache-policy check is made, and the
cache eviction plus per-kind query clearing always run on store success;
a cache rejection is the promise's rejection (no catch). -/
def wrappedDeleteSingle (b : CacheBackend) (storeResult : Except DsError Nat)
    (key : DsKey) (st : CacheState) : Except DsError (Nat × CacheState) :=
  match storeResult with
  | .error err => .error err
  | .ok res =>
    match keysDel b key st with
    | .error err => .error err
    | .ok st1 =>
      match clearQueriesByKind b key.kind st1 with
      | .error err => .error err
      | .ok st2 => .ok (res, st2)

/-- The wrapped datastore.delete as invoked by a caller that passes an
options object: the wrapper is keys => ..., so any further argument is
ignored by JavaScript and the behavior is exactly wrappedDeleteSingle. -/
def wrappedDeleteWithOptions (b : CacheBackend) (storeResult : Except DsError Nat)
    (key : DsKey) (o : CacheOption) (g : GlobalFlag) (st : CacheState) :
    Except DsError (Nat × CacheState) :=
  match o, g with
  | _, _ => wrappedDeleteSingle b storeResult key st

/-- Whether an adapter promise settled fulfilled. -/
def isOkE : Except DsError (Nat × CacheState) → Bool
  | .ok _ => true
  | .error _ => false

/-- Observation of a settled write/delete: the query-cache entry stored
under a CanonicalString, when the operation fulfilled. -/
def savedQueriesLookup (r : Except DsError (Nat × CacheState)) (s : String) :
    Option (Option Nat) :=
  match r with
  | .ok (_, st) => some (st.queriesCache s)
  | .error _ => none

/-- Observation of a settled write/delete: the record-cache entry stored
under a CanonicalString, when the operation fulfilled. -/
def savedKeysLookup (r : Except DsError (Nat × CacheState)) (s : String) :
    Option (Option Nat) :=
  match r with
  | .ok (_, st) => some (st.keysCache s)
  | .error _ => none

/-- Observation: the value produced by a query read-through executed on
the state left by a settled write, when the write fulfilled. -/
def savedReadAfter (r : Except DsError (Nat × CacheState)) (q : Query)
    (fetchRes : Nat) : Option Nat :=
  match r with
  | .ok (_, st) => some (queriesRead q fetchRes st).1
  | .error _ => none

/-- A JavaScript entity-data object as seen by the adapter helpers: its
own enumerable fields (opaque values) and the value, if any, stored under
the datastore KEY symbol. -/
structure JsObj where
  fields : String → Option Nat
  keySym : Option DsKey

/-- An entity argument to the adapter helpers: undefined, null, or an
object (objects are always truthy in JavaScript). -/
inductive EntityArg
  | undefined
  | null
  | obj (o : JsObj)

/-- addKeyToEntity (src/lib/index.js lines 67-72): a falsy entity
(undefined or null) is returned unchanged; otherwise
Object.assign({}, entity, { [ds.KEY]: key }) builds a fresh object with
all of the entity's own fields and the key under the KEY symbol, leaving
the input untouched (the input never appears in the output the source
builds from it, which a pure value map captures by construction). -/
def addKeyToEntity (key : DsKey) : EntityArg → EntityArg
  | .undefined => .undefined
  | .null => .null
  | .obj o => .obj { fields := o.fields, keySym := some key }

/-- The JavaScript value returned by getKeyFromEntity: the entity itself
when it was undefined or null, otherwise entity[ds.KEY] (undefined when
the symbol is absent). -/
inductive GetKeyResult
  | undefined
  | null
  | key (k : DsKey)

/-- getKeyFromEntity (src/lib/index.js lines 43-48): a falsy entity is
returned unchanged; otherwise the value under the KEY symbol. -/
def getKeyFromEntity : EntityArg → GetKeyResult
  | .undefined => .undefined
  | .null => .null
  | .obj o =>
    match o.keySym with
    | some k => .key k
    | none => .undefined

/-- Example key: namespace "ns", single segment (\x22User\x22, 111). -/
def exKeyUser111 : DsKey := ⟨some "ns", [⟨"User", .int 111⟩]⟩

/-- Example key: the three-segment ancestor chain from the repository's
unit test. -/
def exKeyGranDad : DsKey :=
  ⟨none, [⟨"GranDad", .str "John"⟩, ⟨"Dad", .str "Mick"⟩, ⟨"User", .int 555⟩]⟩

/-- Example key with the integer identifier 111. -/
def exKeyUserInt : DsKey := ⟨none, [⟨"User", .int 111⟩]⟩

/-- Example key with the string identifier "111". -/
def exKeyUserStr : DsKey := ⟨none, [⟨"User", .str "111"⟩]⟩

/-- Example key on which the encoding is collision-free. -/
def exGoodKey : DsKey := ⟨some "ns", [⟨"User", .str "a"⟩]⟩

/-- Example key of kind "User" used by the coordinator scenarios. -/
def exKeyU : DsKey := ⟨none, [⟨"User", .int 1⟩]⟩

/-- Example entity of kind "User". -/
def exEntityU : Entity := ⟨exKeyU, 5, none⟩

/-- Example query over the kind "User" with no constraints. -/
def exQueryUser : Query := ⟨["User"], none, [], [], -1, -1, [], [], none, none⟩

/-- Example query declaring the two kinds "A" and "B". -/
def exQueryAB : Query := ⟨["A", "B"], none, [], [], -1, -1, [], [], none, none⟩

/-- Example query with two filters in declared order. -/
def exQueryF1 : Query :=
  ⟨["User"], none, [⟨"a", "=", .str "1"⟩, ⟨"b", ">", .str "2"⟩],
   [], -1, -1, [], [], none, none⟩

/-- The same query with its filter list reordered. -/
def exQueryF2 : Query := { exQueryF1 with filters := exQueryF1.filters.reverse }

/-- The empty cache state. -/
def emptyState : CacheState := ⟨fun _ => none, fun _ => none, fun _ => []⟩

/-- A cache state in which exQueryUser's result tuple (the value 7) is
cached and its CanonicalString is registered under its operative kind
"User": exactly the state the query read path leaves behind. -/
def exStateQ : CacheState :=
  ⟨fun _ => none,
   fun s => if s = queryToString exQueryUser then some 7 else none,
   fun k => if k = "User" then [queryToString exQueryUser] else []⟩

/-- A cache state holding a record entry (the value 5) for exKeyU. -/
def exStateK : CacheState :=
  ⟨fun s => if s = keyToString exKeyU then some 5 else none,
   fun _ => none, fun _ => []⟩

/-! Helper lemmas about strings and the separator-joined encodings. -/

theorem sAppend_assoc (a b c : String) : (a ++ b) ++ c = a ++ (b ++ c) := by
  apply String.ext
  simp [String.data_append]

theorem sEmpty_append (a : String) : "" ++ a = a := by
  apply String.ext
  simp [String.data_append]

theorem sAppend_empty (a : String) : a ++ "" = a := by
  apply String.ext
  simp [String.data_append]

theorem joinSep_cons (a : String) (l : List String) (h : l ≠ []) :
    joinSep (a :: l) = a ++ separator ++ joinSep l := by
  cases l with
  | nil => exact absurd rfl h
  | cons b r => rfl

theorem joinSep_data_cons2 (a b : String) (r : List String) :
    (joinSep (a :: b :: r)).data
      = a.data ++ ':' :: '%' :: ':' :: (joinSep (b :: r)).data := by
  simp only [joinSep, String.data_append]
  rw [List.append_assoc]
  rfl

theorem charSplit (a : List Char) : ∀ (b t1 t2 : List Char),
    ':' ∉ a → ':' ∉ b → a ++ ':' :: t1 = b ++ ':' :: t2 → a = b ∧ t1 = t2 := by
  induction a with
  | nil =>
    intro b t1 t2 _ hb heq
    cases b with
    | nil => simpa using heq
    | cons d bs =>
      exfalso
      simp only [List.nil_append, List.cons_append, List.cons.injEq] at heq
      exact hb (heq.1 ▸ List.mem_cons_self d bs)
  | cons c as ih =>
    intro b t1 t2 ha hb heq
    cases b with
    | nil =>
      exfalso
      simp only [List.nil_append, List.cons_append, List.cons.injEq] at heq
      exact ha (heq.1.symm ▸ List.mem_cons_self c as)
    | cons d bs =>
      simp only [List.cons_append, List.cons.injEq] at heq
      have htail := ih bs t1 t2 (fun hm => ha (List.mem_cons_of_mem c hm))
        (fun hm => hb (List.mem_cons_of_mem d hm)) heq.2
      exact ⟨by rw [heq.1, htail.1], htail.2⟩

theorem colon_mem_sep_append (b : String) (x : String) :
    ':' ∈ (b ++ (separator ++ x)).data := by
  rw [String.data_append, String.data_append]
  refine List.mem_append_right _ (List.mem_append_left _ ?_)
  show ':' ∈ separator.data
  decide

theorem joinSepInj (l1 : List String) : ∀ (l2 : List String),
    (∀ s ∈ l1, ':' ∉ s.data) → (∀ s ∈ l2, ':' ∉ s.data) →
    l1 ≠ [] → l2 ≠ [] → joinSep l1 = joinSep l2 → l1 = l2 := by
  induction l1 with
  | nil => intro l2 _ _ h1 _ _; exact absurd rfl h1
  | cons a l1t ih =>
    intro l2 h1 h2 _ hne2 heq
    cases l2 with
    | nil => exact absurd rfl hne2
    | cons b l2t =>
      cases l1t with
      | nil =>
        cases l2t with
        | nil =>
          simp only [joinSep] at heq
          rw [heq]
        | cons c l2tt =>
          exfalso
          simp only [joinSep] at heq
          have hmem : ':' ∈ a.data := by
            rw [heq, sAppend_assoc]
            exact colon_mem_sep_append b _
          exact h1 a (List.mem_cons_self a []) hmem
      | cons a2 l1tt =>
        cases l2t with
        | nil =>
          exfalso
          simp only [joinSep] at heq
          have hmem : ':' ∈ b.data := by
            rw [← heq, sAppend_assoc]
            exact colon_mem_sep_append a _
          exact h2 b (List.mem_cons_self b []) hmem
        | cons b2 l2tt =>
          have hdata : a.data ++ ':' :: '%' :: ':' :: (joinSep (a2 :: l1tt)).data
              = b.data ++ ':' :: '%' :: ':' :: (joinSep (b2 :: l2tt)).data := by
            rw [← joinSep_data_cons2, ← joinSep_data_cons2, heq]
          have hsplit := charSplit a.data b.data _ _
            (h1 a (List.mem_cons_self a _)) (h2 b (List.mem_cons_self b _)) hdata
          have hab : a = b := String.ext hsplit.1
          have htails : (joinSep (a2 :: l1tt)).data = (joinSep (b2 :: l2tt)).data := by
            have := hsplit.2
            simp only [List.cons.injEq] at this
            exact this.2.2
          have hrest : a2 :: l1tt = b2 :: l2tt := by
            refine ih (b2 :: l2tt) ?_ ?_ (by simp) (by simp) (String.ext htails)
            · intro s hs; exact h1 s (List.mem_cons_of_mem a hs)
            · intro s hs; exact h2 s (List.mem_cons_of_mem b hs)
          rw [hab, hrest]

theorem pathList_length (segs : List Segment) :
    (pathList segs).length = 2 * segs.length := by
  induction segs with
  | nil => rfl
  | cons seg rest ih => simp [pathList, ih]; omega

theorem pathList_ne_nil (segs : List Segment) (h : segs ≠ []) :
    pathList segs ≠ [] := by
  cases segs with
  | nil => exact absurd rfl h
  | cons seg rest => simp [pathList]

theorem pathList_inj (s1 : List Segment) : ∀ (s2 : List Segment),
    (∀ seg ∈ s1, identOk seg.ident) → (∀ seg ∈ s2, identOk seg.ident) →
    pathList s1 = pathList s2 → s1 = s2 := by
  induction s1 with
  | nil =>
    intro s2 _ _ heq
    cases s2 with
    | nil => rfl
    | cons seg rest => simp [pathList] at heq
  | cons seg1 r1 ih =>
    intro s2 h1 h2 heq
    cases s2 with
    | nil => simp [pathList] at heq
    | cons seg2 r2 =>
      simp only [pathList, List.cons.injEq] at heq
      obtain ⟨hk, hr, ht⟩ := heq
      have hi1 := h1 seg1 (List.mem_cons_self seg1 r1)
      have hi2 := h2 seg2 (List.mem_cons_self seg2 r2)
      have hident : seg1.ident = seg2.ident := by
        cases hseg1 : seg1.ident with
        | str x =>
          cases hseg2 : seg2.ident with
          | str y =>
            rw [hseg1, hseg2] at hr
            simp only [Ident.render] at hr
            rw [hr]
          | int n => rw [hseg2] at hi2; exact absurd hi2 (by simp [identOk])
        | int n => rw [hseg1] at hi1; exact absurd hi1 (by simp [identOk])
      have hrest := ih r2 (fun s hs => h1 s (List.mem_cons_of_mem seg1 hs))
        (fun s hs => h2 s (List.mem_cons_of_mem seg2 hs)) ht
      obtain ⟨k1, i1⟩ := seg1
      obtain ⟨k2, i2⟩ := seg2
      simp only at hk hident
      rw [hk, hident, hrest]

theorem keyToString_eq_joinSep_keyComponents (k : DsKey) (h : k.segments ≠ []) :
    keyToString k = joinSep (keyComponents k) := by
  obtain ⟨ns, segs⟩ := k
  have hpne : pathList segs ≠ [] := pathList_ne_nil segs h
  cases ns with
  | none =>
    show "" ++ joinSep (pathList segs) = joinSep ([] ++ pathList segs)
    rw [List.nil_append, sEmpty_append]
  | some s =>
    by_cases hs : s = ""
    · show (if s = "" then "" else s ++ separator) ++ joinSep (pathList segs)
        = joinSep ((if s = "" then [] else [s]) ++ pathList segs)
      rw [if_pos hs, if_pos hs, List.nil_append, sEmpty_append]
    · show (if s = "" then "" else s ++ separator) ++ joinSep (pathList segs)
        = joinSep ((if s = "" then [] else [s]) ++ pathList segs)
      rw [if_neg hs, if_neg hs, List.singleton_append,
        joinSep_cons s (pathList segs) hpne]

theorem sFoldl_append (l : List String) : ∀ (acc : String),
    l.foldl (fun r s => r ++ s) acc = acc ++ String.join l := by
  induction l with
  | nil => intro acc; rw [List.foldl_nil]; exact (sAppend_empty acc).symm
  | cons s t ih =>
    intro acc
    rw [List.foldl_cons, ih (acc ++ s)]
    show acc ++ s ++ String.join t = acc ++ (s :: t).foldl (fun r s => r ++ s) ""
    rw [List.foldl_cons, ih ("" ++ s), sEmpty_append, sAppend_assoc]

theorem sJoin_cons (s : String) (l : List String) :
    String.join (s :: l) = s ++ String.join l := by
  show (s :: l).foldl (fun r s => r ++ s) "" = s ++ String.join l
  rw [List.foldl_cons, sFoldl_append, sEmpty_append]

theorem filtersFoldAux (fs : List DsFilter) : ∀ (acc : String),
    fs.foldl (fun acc f => acc ++ f.name ++ f.op ++ filterValEncode f.val) acc
      = acc ++ specFiltersField fs := by
  induction fs with
  | nil =>
    intro acc
    rw [List.foldl_nil]
    exact (sAppend_empty acc).symm
  | cons fl t ih =>
    intro acc
    rw [List.foldl_cons, ih]
    simp only [specFiltersField, List.map_cons, sJoin_cons]
    simp only [sAppend_assoc]

theorem filtersFold_eq (fs : List DsFilter) :
    fs.foldl (fun acc f => acc ++ f.name ++ f.op ++ filterValEncode f.val) ""
      = specFiltersField fs := by
  rw [filtersFoldAux, sEmpty_append]

theorem pathList_colonFree (segs : List Segment)
    (h : ∀ seg ∈ segs, ':' ∉ seg.kind.data ∧ identOk seg.ident) :
    ∀ s ∈ pathList segs, ':' ∉ s.data := by
  induction segs with
  | nil => intro s hs; simp [pathList] at hs
  | cons seg rest ih =>
    intro s hs
    have hseg := h seg (List.mem_cons_self seg rest)
    simp only [pathList, List.mem_cons] at hs
    rcases hs with h1 | h2 | h3
    · rw [h1]; exact hseg.1
    · rw [h2]
      cases hident : seg.ident with
      | str x =>
        have := hseg.2
        rw [hident] at this
        simpa [Ident.render] using this
      | int n =>
        have := hseg.2
        rw [hident] at this
        exact absurd this (by simp [identOk])
    · exact ih (fun sg hsg => h sg (List.mem_cons_of_mem seg hsg)) s h3

theorem keyComponents_colonFree (k : DsKey) (h : goodKey k) :
    ∀ s ∈ keyComponents k, ':' ∉ s.data := by
  obtain ⟨hne, hsegs, hns⟩ := h
  intro s hs
  obtain ⟨ns, segs⟩ := k
  cases ns with
  | none =>
    simp only [keyComponents, List.nil_append] at hs
    exact pathList_colonFree segs hsegs s hs
  | some n =>
    have hn : n ≠ "" ∧ ':' ∉ n.data := hns
    simp only [keyComponents, if_neg hn.1, List.singleton_append, List.mem_cons] at hs
    rcases hs with h1 | h2
    · rw [h1]; exact hn.2
    · exact pathList_colonFree segs hsegs s h2

theorem keyComponents_ne_nil (k : DsKey) (h : k.segments ≠ []) :
    keyComponents k ≠ [] := by
  obtain ⟨ns, segs⟩ := k
  cases segs with
  | nil => exact absurd rfl h
  | cons seg rest =>
    cases ns with
    | none => simp [keyComponents, DsKey.path, pathList]
    | some n =>
      by_cases hn : n = "" <;> simp [keyComponents, DsKey.path, pathList, hn]

theorem keyComponents_inj (k1 k2 : DsKey) (h1 : goodKey k1) (h2 : goodKey k2)
    (heq : keyComponents k1 = keyComponents k2) :
    k1.nspace = k2.nspace ∧ k1.segments = k2.segments := by
  obtain ⟨hne1, hsegs1, hns1⟩ := h1
  obtain ⟨hne2, hsegs2, hns2⟩ := h2
  obtain ⟨ns1, s1⟩ := k1
  obtain ⟨ns2, s2⟩ := k2
  simp only at hne1 hsegs1 hns1 hne2 hsegs2 hns2 ⊢
  have hident1 : ∀ seg ∈ s1, identOk seg.ident := fun seg hs => (hsegs1 seg hs).2
  have hident2 : ∀ seg ∈ s2, identOk seg.ident := fun seg hs => (hsegs2 seg hs).2
  cases ns1 with
  | none =>
    cases ns2 with
    | none =>
      simp only [keyComponents, List.nil_append] at heq
      exact ⟨rfl, pathList_inj s1 s2 hident1 hident2 heq⟩
    | some n2 =>
      exfalso
      have hn2 : n2 ≠ "" ∧ ':' ∉ n2.data := hns2
      simp only [keyComponents, DsKey.path, if_neg hn2.1, List.nil_append,
        List.singleton_append] at heq
      have hlen := congrArg List.length heq
      simp only [List.length_cons, pathList_length] at hlen
      omega
  | some n1 =>
    have hn1 : n1 ≠ "" ∧ ':' ∉ n1.data := hns1
    cases ns2 with
    | none =>
      exfalso
      simp only [keyComponents, DsKey.path, if_neg hn1.1, List.nil_append,
        List.singleton_append] at heq
      have hlen := congrArg List.length heq
      simp only [List.length_cons, pathList_length] at hlen
      omega
    | some n2 =>
      have hn2 : n2 ≠ "" ∧ ':' ∉ n2.data := hns2
      simp only [keyComponents, if_neg hn1.1, if_neg hn2.1,
        List.singleton_append, List.cons.injEq] at heq
      exact ⟨by rw [heq.1], pathList_inj s1 s2 hident1 hident2 heq.2⟩

/-- Claim C3 counterexample: the Keys (\x22User\x22, integer 111) and
(\x22User\x22, string "111") have identical namespaces but different path
segments, yet keyToString encodes both as "User:%:111", so encoding
equality does not imply segment equality. -/
theorem c3_counterexample :
    keyToString exKeyUserInt = keyToString exKeyUserStr
    ∧ ¬(exKeyUserInt.nspace = exKeyUserStr.nspace
        ∧ exKeyUserInt.segments = exKeyUserStr.segments) := by
  constructor
  · decide
  · decide

/-- Claim C3 (amended): restricted to Keys with a nonempty path, string
identifiers, a nonempty namespace when one is present, and no colon
character inside any namespace, kind or identifier, keyToString is
injective: encodings agree exactly when the namespace and the ordered
path segments agree. -/
theorem c3_encode_injective_on_good_keys (k1 k2 : DsKey)
    (h1 : goodKey k1) (h2 : goodKey k2) :
    keyToString k1 = keyToString k2
      ↔ (k1.nspace = k2.nspace ∧ k1.segments = k2.segments) := by
  constructor
  · intro heq
    have e1 := keyToString_eq_joinSep_keyComponents k1 h1.1
    have e2 := keyToString_eq_joinSep_keyComponents k2 h2.1
    have hcomp : keyComponents k1 = keyComponents k2 := by
      refine joinSepInj (keyComponents k1) (keyComponents k2)
        (keyComponents_colonFree k1 h1) (keyComponents_colonFree k2 h2)
        (keyComponents_ne_nil k1 h1.1) (keyComponents_ne_nil k2 h2.1) ?_
      rw [← e1, ← e2, heq]
    exact keyComponents_inj k1 k2 h1 h2 hcomp
  · intro ⟨hn, hs⟩
    obtain ⟨ns1, s1⟩ := k1
    obtain ⟨ns2, s2⟩ := k2
    simp only at hn hs
    rw [hn, hs]

/-- Claim C3 witness: a concrete collision-free Key on which the amended
equivalence is instantiated. -/
theorem c3_witness :
    goodKey exGoodKey
    ∧ (keyToString exGoodKey = keyToString exGoodKey
        ↔ (exGoodKey.nspace = exGoodKey.nspace
            ∧ exGoodKey.segments = exGoodKey.segments)) :=
  ⟨by decide, c3_encode_injective_on_good_keys exGoodKey exGoodKey
    (by decide) (by decide)⟩

/-- Claim C4 counterexample: a null key is not rejected by the guard
(which tests typeof key === 'undefined' only); the failure it produces is
a TypeError from the null property access, not the InvalidArgument error
"Key cannot be undefined.". -/
theorem c4_counterexample :
    keyToStringChecked .null ≠ .error (.error "Key cannot be undefined.")
    ∧ keyToStringChecked .null = .error .typeError := by
  constructor
  · intro h
    simp [keyToStringChecked] at h
  · rfl

/-- Claim C4 (amended): keyToString fails synchronously with the
InvalidArgument error "Key cannot be undefined." exactly when the key is
undefined; a null key instead fails synchronously with a TypeError raised
by the key.namespace access. -/
theorem c4_undefined_guard :
    keyToStringChecked .undefined = .error (.error "Key cannot be undefined.")
    ∧ keyToStringChecked .null = .error .typeError :=
  ⟨rfl, rfl⟩

/-- Claim C5: for every Key with a nonempty path, keyToString is the
namespace (when present and nonempty) followed by the separator-joined
path components, with the separator between consecutive components; in
particular the two scenario Keys encode to "ns:%:User:%:111" and
"GranDad:%:John:%:Dad:%:Mick:%:User:%:555". -/
theorem c5_key_encoding_shape :
    (∀ k : DsKey, k.segments ≠ [] → keyToString k = joinSep (keyComponents k))
    ∧ keyToString exKeyUser111 = "ns:%:User:%:111"
    ∧ keyToString exKeyGranDad = "GranDad:%:John:%:Dad:%:Mick:%:User:%:555" :=
  ⟨fun k h => keyToString_eq_joinSep_keyComponents k h, by decide, by decide⟩

/-- Claim C5 witness: the general shape instantiated on the first
scenario Key. -/
theorem c5_witness :
    exKeyUser111.segments ≠ []
    ∧ keyToString exKeyUser111 = joinSep (keyComponents exKeyUser111) :=
  ⟨by decide, c5_key_encoding_shape.1 exKeyUser111 (by decide)⟩

/-- Claim C6: for every Query, queryToString is exactly the ten encoded
fields - joined kinds, namespace, concatenated filters, concatenated
group-by names, limit, offset, concatenated order clauses, concatenated
projected names, start cursor, end cursor - in that order, joined with
the separator; it reads only the Query's declared fields (it is a pure
function of the Query value and in particular never executes the
query). -/
theorem c6_query_encoding_fields (q : Query) :
    queryToString q = joinSep (kindsField q :: restFields q)
    ∧ (kindsField q :: restFields q).length = 10 := by
  constructor
  · simp only [queryToString, restFields, kindsField, namespaceField, groupByField,
      limitField, offsetField, ordersField, selectField, startField, endField]
    rw [filtersFold_eq]
  · rfl

/-- Claim C7 counterexample: for the two-kind query over "A" and "B" the
encoding does not start with the kinds concatenated without separator
("AB"): the source joins the kinds with the separator itself, giving
"A:%:B" as the first field. -/
theorem c7_counterexample :
    queryToString exQueryAB
      ≠ joinSep (String.join exQueryAB.kinds :: restFields exQueryAB)
    ∧ queryToString exQueryAB = "A:%:B:%::%::%::%:-1:%:-1:%::%::%::%:"
    ∧ String.join exQueryAB.kinds = "AB" :=
  ⟨by decide, by decide, by decide⟩

/-- Claim C7 (amended): for every Query declaring two or more target
kinds, the first encoded field is the kinds joined WITH the separator
between them (query.kinds.join(separator)), not concatenated bare. -/
theorem c7_kinds_joined_with_separator (q : Query) (_h : 2 ≤ q.kinds.length) :
    queryToString q = joinSep (joinSep q.kinds :: restFields q) := by
  simp only [queryToString, restFields, namespaceField, groupByField,
    limitField, offsetField, ordersField, selectField, startField, endField]
  rw [filtersFold_eq]

/-- Claim C7 witness: the amended first-field shape instantiated on the
two-kind query. -/
theorem c7_witness :
    2 ≤ exQueryAB.kinds.length
    ∧ queryToString exQueryAB
        = joinSep (joinSep exQueryAB.kinds :: restFields exQueryAB) :=
  ⟨by decide, c7_kinds_joined_with_separator exQueryAB (by decide)⟩

/-- Claim C8: the filters field of queryToString is the concatenation, in
declared order and with no inter-filter separator, of name + operator +
value (a Key value replaced by keyToString); it sits third in the
encoding; and reordering a filter list can change the encoding, shown on
a concrete pair of queries differing only by filter order. -/
theorem c8_filters_field :
    (∀ fs : List DsFilter,
        fs.foldl (fun acc f => acc ++ f.name ++ f.op ++ filterValEncode f.val) ""
          = specFiltersField fs)
    ∧ (∀ q : Query,
        queryToString q
          = joinSep (kindsField q :: namespaceField q :: specFiltersField q.filters ::
              groupByField q :: limitField q :: offsetField q :: ordersField q ::
              selectField q :: startField q :: [endField q]))
    ∧ exQueryF2.filters = exQueryF1.filters.reverse
    ∧ queryToString exQueryF1 ≠ queryToString exQueryF2 := by
  refine ⟨filtersFold_eq, ?_, rfl, by decide⟩
  intro q
  simp only [queryToString, kindsField, namespaceField, groupByField,
    limitField, offsetField, ordersField, selectField, startField, endField]
  rw [filtersFold_eq]

/-- Claim C10: addKeyToEntity on an object yields an object carrying all
of the input's own fields plus the key under the KEY symbol (the input
value itself is not modified - the embedding is a pure value map, exactly
because Object.assign({}, entity, ...) writes only to a fresh object);
undefined and null entities pass through unchanged, and getKeyFromEntity
likewise returns undefined and null entities unchanged. -/
theorem c10_entity_key_helpers :
    (∀ (key : DsKey) (o : JsObj),
        addKeyToEntity key (.obj o) = .obj ⟨o.fields, some key⟩)
    ∧ (∀ key : DsKey, addKeyToEntity key .null = .null)
    ∧ (∀ key : DsKey, addKeyToEntity key .undefined = .undefined)
    ∧ getKeyFromEntity .null = .null
    ∧ getKeyFromEntity .undefined = .undefined
    ∧ (∀ (key : DsKey) (o : JsObj),
        getKeyFromEntity (addKeyToEntity key (.obj o)) = .key key) :=
  ⟨fun _ _ => rfl, fun _ => rfl, fun _ => rfl, rfl, rfl, fun _ _ => rfl⟩

/-- Claim C9 counterexample: the wrapped delete performs its cache
eviction even when the caller passes an explicit cache:false and the
global flag is false - the both-false policy that bypasses every other
operation - because the delete wrapper accepts no options at all: the
cached entry for the deleted key (present before, value 5) is gone
afterwards instead of being left untouched. -/
theorem c9_counterexample :
    savedKeysLookup
        (wrappedDeleteWithOptions nofail (.ok 0) exKeyU (.boolean false)
          (.boolean false) exStateK)
        (keyToString exKeyU) = some none
    ∧ exStateK.keysCache (keyToString exKeyU) = some 5 :=
  ⟨by decide, by decide⟩

/-- Claim C9 (amended): the record read, query read and write paths
resolve the cache policy identically through isCacheOn - an explicit
cache:false bypasses the cache entirely even when the global flag is on,
an absent option defers to the global flag (enabled unless explicitly
false), and a present ttl object wins over a disabled global flag - but
the delete path accepts no per-call options: its behavior is invariant in
both the per-call option and the global config, and its cache operations
always run. -/
theorem c9_policy_resolution (o o2 : CacheOption) (g g2 : GlobalFlag)
    (b : CacheBackend) (key : DsKey) (sv r : Nat) (st : CacheState) (q : Query)
    (qv : Nat) (e : Entity) (sr : Except DsError Nat) (bb : Bool) (n : Int) :
    wrappedGet (.boolean false) g key sv st = (sv, st)
    ∧ wrappedRunQuery (.boolean false) g q qv st = (qv, st)
    ∧ wrappedSaveSingle b (.ok r) e (.boolean false) g st = .ok (r, st)
    ∧ wrappedGet .undefined (.boolean false) key sv st = (sv, st)
    ∧ wrappedRunQuery .undefined (.boolean false) q qv st = (qv, st)
    ∧ wrappedSaveSingle b (.ok r) e .undefined (.boolean false) st = .ok (r, st)
    ∧ wrappedGet (.ttl n) g key sv st = keysRead key sv st
    ∧ wrappedRunQuery (.ttl n) g q qv st = queriesRead q qv st
    ∧ isCacheOn (.boolean bb) g = bb
    ∧ isCacheOn (.ttl n) g = true
    ∧ isCacheOn .undefined g = globalEnabled g
    ∧ wrappedDeleteWithOptions b sr key o g st
        = wrappedDeleteWithOptions b sr key o2 g2 st := by
  refine ⟨rfl, rfl, rfl, rfl, rfl, rfl, rfl, rfl, rfl, rfl, ?_, rfl⟩
  cases g with
  | undefined => rfl
  | boolean b2 => cases b2 <;> rfl

/-- Claim C2 counterexample: with the store call succeeded (resolved ok)
and the cache backend failing its clearQueriesByKind operation, the
wrapped save and the wrapped delete both settle rejected with the cache
error - the cache failure is propagated as the operation's error, not
swallowed. -/
theorem c2_counterexample :
    isOkE (wrappedSaveSingle ⟨false, false, true⟩ (.ok 0) exEntityU
        .undefined .undefined emptyState) = false
    ∧ wrappedSaveSingle ⟨false, false, true⟩ (.ok 0) exEntityU
        .undefined .undefined emptyState
        = .error (.cacheError "queries.clearQueriesByKind")
    ∧ isOkE (wrappedDeleteSingle ⟨false, false, true⟩ (.ok 0) exKeyU emptyState)
        = false
    ∧ wrappedDeleteSingle ⟨false, false, true⟩ (.ok 0) exKeyU emptyState
        = .error (.cacheError "queries.clearQueriesByKind") :=
  ⟨rfl, rfl, rfl, rfl⟩

/-- Claim C2 (amended): a store failure is always propagated verbatim by
the wrapped save and delete; with a healthy cache backend both fulfill
after a successful store call; but when the store call succeeds and any
subsequent cache operation (priming, eviction, or per-kind clearing)
rejects, the wrapped save / update / delete settles rejected - the source
chains the cache promises with no catch, so cache failures are propagated
rather than swallowed. -/
theorem c2_cache_failures_propagate (msg : String) (e : Entity) (o : CacheOption)
    (g : GlobalFlag) (st : CacheState) (r : Nat) (b : CacheBackend)
    (fs fd fc : Bool) (k : DsKey) :
    wrappedSaveSingle b (.error (.storeError msg)) e o g st
        = .error (.storeError msg)
    ∧ wrappedDeleteSingle b (.error (.storeError msg)) k st
        = .error (.storeError msg)
    ∧ isOkE (wrappedSaveSingle nofail (.ok r) e o g st) = true
    ∧ isOkE (wrappedDeleteSingle nofail (.ok r) k st) = true
    ∧ isOkE (wrappedSaveSingle ⟨true, fd, fc⟩ (.ok r) e .undefined .undefined st) = false
    ∧ isOkE (wrappedSaveSingle ⟨false, fd, true⟩ (.ok r) e .undefined .undefined st) = false
    ∧ isOkE (wrappedUpdate ⟨false, fd, true⟩ (.ok r) [e] .undefined .undefined st) = false
    ∧ isOkE (wrappedDeleteSingle ⟨fs, true, fc⟩ (.ok r) k st) = false
    ∧ isOkE (wrappedDeleteSingle ⟨fs, fd, true⟩ (.ok r) k st) = false := by
  refine ⟨rfl, rfl, ?_, ?_, rfl, rfl, rfl, rfl, ?_⟩
  · cases h : isCacheOn o g <;>
      simp [wrappedSaveSingle, keysSet, clearQueriesByKind, nofail, isOkE, h]
  · simp [wrappedDeleteSingle, keysDel, clearQueriesByKind, nofail, isOkE]
  · cases fd <;>
      simp [wrappedDeleteSingle, keysDel, clearQueriesByKind, isOkE]

theorem keysSet_ok (b : CacheBackend) (hb : b.failSet = false) (k : DsKey)
    (v : Nat) (st : CacheState) :
    keysSet b k v st = .ok
      { st with
        keysCache := fun s => if s = keyToString k then some v else st.keysCache s } := by
  simp [keysSet, hb]

theorem keysMset_ok (b : CacheBackend) (hb : b.failSet = false) :
    ∀ (ps : List (DsKey × Nat)) (st : CacheState),
      ∃ st1, keysMset b ps st = .ok st1
        ∧ st1.queriesCache = st.queriesCache ∧ st1.registry = st.registry := by
  intro ps
  induction ps with
  | nil => intro st; exact ⟨st, rfl, rfl, rfl⟩
  | cons p rest ih =>
    intro st
    obtain ⟨k, v⟩ := p
    obtain ⟨st1, h1, h2, h3⟩ := ih
      { st with
        keysCache := fun s => if s = keyToString k then some v else st.keysCache s }
    refine ⟨st1, ?_, h2, h3⟩
    simp only [keysMset, keysSet_ok b hb]
    exact h1

theorem clearOne_ok (b : CacheBackend) (hb : b.failClear = false) (kind : String)
    (st : CacheState) :
    clearQueriesByKind b kind st = .ok
      { st with
        queriesCache := fun s => if s ∈ st.registry kind then none else st.queriesCache s,
        registry := fun k => if k = kind then [] else st.registry k } := by
  simp [clearQueriesByKind, hb]

theorem clearMany_ok (b : CacheBackend) (hb : b.failClear = false) :
    ∀ (kinds : List String) (st : CacheState),
      ∃ st2, clearQueriesByKindMany b kinds st = .ok st2
        ∧ (∀ K qs, K ∈ kinds → qs ∈ st.registry K → st2.queriesCache qs = none)
        ∧ (∀ qs, st.queriesCache qs = none → st2.queriesCache qs = none)
        ∧ st2.keysCache = st.keysCache := by
  intro kinds
  induction kinds with
  | nil =>
    intro st
    exact ⟨st, rfl, by simp, fun qs h => h, rfl⟩
  | cons k rest ih =>
    intro st
    obtain ⟨st2, h1, h2, h3, h4⟩ := ih
      { st with
        queriesCache := fun s => if s ∈ st.registry k then none else st.queriesCache s,
        registry := fun kk => if kk = k then [] else st.registry kk }
    refine ⟨st2, ?_, ?_, ?_, h4⟩
    · simp only [clearQueriesByKindMany, clearOne_ok b hb]
      exact h1
    · intro K qs hK hqs
      by_cases hKk : K = k
      · apply h3 qs
        show (if qs ∈ st.registry k then none else st.queriesCache qs) = none
        rw [if_pos (hKk ▸ hqs)]
      · have hKrest : K ∈ rest := by
          rcases List.mem_cons.mp hK with h | h
          · exact absurd h hKk
          · exact h
        apply h2 K qs hKrest
        show qs ∈ (if K = k then ([] : List String) else st.registry K)
        rw [if_neg hKk]
        exact hqs
    · intro qs hqs
      apply h3 qs
      show (if qs ∈ st.registry k then none else st.queriesCache qs) = none
      by_cases hmem : qs ∈ st.registry k
      · rw [if_pos hmem]
      · rw [if_neg hmem]; exact hqs

/-- Claim C1 counterexample: exQueryUser's result tuple is cached and its
CanonicalString is registered under its operative kind "User"; a write of
a "User" entity performed with cache:false succeeds but leaves that state
untouched (the success handler skips clearQueriesByKind when the cache is
off), so a subsequent query read still returns the cached value 7 that
predates the write, not a fresh result. -/
theorem c1_counterexample :
    wrappedSaveSingle nofail (.ok 0) exEntityU (.boolean false) .undefined exStateQ
        = .ok (0, exStateQ)
    ∧ exEntityU.key.kind = getEntityKindFromQuery exQueryUser
    ∧ exStateQ.queriesCache (queryToString exQueryUser) = some 7
    ∧ queryToString exQueryUser ∈ exStateQ.registry (getEntityKindFromQuery exQueryUser)
    ∧ (queriesRead exQueryUser 99 exStateQ).1 = 7
    ∧ (7 : Nat) ≠ 99 :=
  ⟨rfl, by decide, by decide, by decide, by decide, by decide⟩

/-- Claim C1 (amended): for every write performed with caching enabled
(isCacheOn true) on a healthy cache backend, once the wrapped save
settles fulfilled, every query CanonicalString registered under the kind
of any written entity has been evicted from the query cache; in
particular a query whose operative kind is among the written kinds and
whose CanonicalString was registered there misses the cache, and a
read-through of that query afterwards returns the freshly fetched result,
not a cached one predating the write. -/
theorem c1_write_clears_registered_queries (b : CacheBackend) (sr : Nat)
    (entities : List Entity) (o : CacheOption) (g : GlobalFlag) (st : CacheState)
    (q : Query) (fetchRes : Nat)
    (hb1 : b.failSet = false) (hb2 : b.failClear = false)
    (hon : isCacheOn o g = true)
    (hkind : getEntityKindFromQuery q ∈ entities.map (fun e => e.key.kind))
    (hreg : queryToString q ∈ st.registry (getEntityKindFromQuery q)) :
    savedQueriesLookup (wrappedSaveMany b (.ok sr) entities o g st) (queryToString q)
        = some none
    ∧ savedReadAfter (wrappedSaveMany b (.ok sr) entities o g st) q fetchRes
        = some fetchRes := by
  obtain ⟨st1, hmset, hqc, hregeq⟩ :=
    keysMset_ok b hb1 (entities.map fun e => (e.key, e.data)) st
  obtain ⟨st2, hclear, hevict, hpres, hkeys⟩ :=
    clearMany_ok b hb2 (entities.map fun e => e.key.kind) st1
  have hrun : wrappedSaveMany b (.ok sr) entities o g st = .ok (sr, st2) := by
    simp only [wrappedSaveMany, hon, hmset, hclear]
    simp
  have hnone : st2.queriesCache (queryToString q) = none := by
    apply hevict (getEntityKindFromQuery q) (queryToString q) hkind
    rw [hregeq]
    exact hreg
  constructor
  · rw [hrun]
    simp [savedQueriesLookup, hnone]
  · rw [hrun]
    simp [savedReadAfter, queriesRead, hnone]

/-- Claim C1 witness: the amended eviction property instantiated on a
concrete cached-and-registered query and a concrete single-entity
batch. -/
theorem c1_witness :
    nofail.failSet = false
    ∧ nofail.failClear = false
    ∧ isCacheOn .undefined .undefined = true
    ∧ getEntityKindFromQuery exQueryUser
        ∈ [exEntityU].map (fun e => e.key.kind)
    ∧ queryToString exQueryUser
        ∈ exStateQ.registry (getEntityKindFromQuery exQueryUser)
    ∧ savedQueriesLookup
        (wrappedSaveMany nofail (.ok 0) [exEntityU] .undefined .undefined exStateQ)
        (queryToString exQueryUser) = some none
    ∧ savedReadAfter
        (wrappedSaveMany nofail (.ok 0) [exEntityU] .undefined .undefined exStateQ)
        exQueryUser 99 = some 99 :=
  ⟨rfl, rfl, rfl, by decide, by decide,
    (c1_write_clears_registered_queries nofail 0 [exEntityU] .undefined .undefined
      exStateQ exQueryUser 99 rfl rfl rfl (by decide) (by decide)).1,
    (c1_write_clears_registered_queries nofail 0 [exEntityU] .undefined .undefined
      exStateQ exQueryUser 99 rfl rfl rfl (by decide) (by decide)).2⟩

end NsqlCacheDatastore
